import Mathlib

/-!
Verification of the sneaker-engine frontend (Angular/TypeScript) against its
natural-language specification.

Shallow embedding conventions:
- JavaScript numbers are modelled as exact rationals (ℚ).  Every value a JS
  number can hold is a dyadic rational, hence has a finite decimal expansion;
  the predicate `DecFriendly` captures membership in this fragment of ℚ.
- `Number.prototype.toString` is modelled by `jsNumToString`, which renders
  the exact shortest decimal form (e.g. `8.5`, `9`, `0.05`); `parseFloat` is
  modelled by `jsParseFloat` on optional-sign decimal strings, returning 0
  where real JS returns NaN (the program only applies it to rendered
  numbers, where NaN never arises; scientific `e` notation is likewise never
  produced for the sizes in scope and is not modelled).
- JS strings are Lean `String`s; `toLowerCase` is `jsToLower`
  (character-wise lowering), `includes` is `jsIncludes` (substring test),
  and string truthiness is non-emptiness.
- `Array.prototype.sort` with a consistent comparator is required by
  ECMAScript 2019+ to be a stable sort; any stable sort computes the same
  list, so it is modelled by `List.insertionSort`.
- `Set` iteration order is insertion order of first occurrences, modelled by
  `jsSetOfList`.
- Angular component state is a record; methods that subscribe to HTTP
  observables are split into a synchronous part returning
  `(new state, issued request?)` plus explicit `next`/`error` callback
  functions, mirroring the subscribe blocks in the source.
-/

namespace SneakerEngine

/-! ### JS string primitives -/

/-- Does the second list start with the first?  (needle, hay). -/
def leadsWith : List Char → List Char → Bool
  | [], _ => true
  | _ :: _, [] => false
  | a :: as, b :: bs => a == b && leadsWith as bs

/-- Contiguous-substring test on character lists (hay, needle). -/
def hasSub : List Char → List Char → Bool
  | [], needle => needle.isEmpty
  | c :: t, needle => leadsWith needle (c :: t) || hasSub t needle

/-- Model of `String.prototype.includes(needle)`. -/
def jsIncludes (hay needle : String) : Bool :=
  hasSub hay.data needle.data

/-- Model of `String.prototype.toLowerCase` (character-wise). -/
def jsToLower (s : String) : String :=
  String.mk (s.data.map Char.toLower)

/-! ### Decimal rendering and parsing of JS numbers -/

/-- Is this character one of 0..9? -/
def isDigitChar (c : Char) : Bool :=
  48 ≤ c.toNat && c.toNat ≤ 57

/-- Numeric value of a decimal digit character. -/
def charVal (c : Char) : ℕ := c.toNat - 48

/-- Value of a most-significant-first digit list. -/
def digitsToNat (l : List Char) : ℕ :=
  l.foldl (fun acc c => 10 * acc + charVal c) 0

/-- Fuel-driven rendering of a natural number as decimal digits
(most significant first).  Structural in the fuel so that it reduces
inside the kernel. -/
def natToDigitsAux : ℕ → ℕ → List Char
  | 0, _ => []
  | fuel + 1, n =>
    if n < 10 then [Char.ofNat (48 + n)]
    else natToDigitsAux fuel (n / 10) ++ [Char.ofNat (48 + n % 10)]

/-- Decimal digits of a natural number, most significant first. -/
def natToDigits (n : ℕ) : List Char := natToDigitsAux (n + 1) n

/-- The fractional digit block for `fp` rendered with exactly `k` digits:
left-padded with zeros. -/
def fracChars (k fp : ℕ) : List Char :=
  List.replicate (k - (natToDigits fp).length) '0' ++ natToDigits fp

/-- Characters of the decimal rendering of the number with absolute scaled
value `n` (that is, `n / 10 ^ k`) and sign `neg`. -/
def renderScaled (neg : Bool) (n k : ℕ) : List Char :=
  (if neg then ['-'] else []) ++ natToDigits (n / 10 ^ k) ++
    (if k = 0 then [] else '.' :: fracChars k (n % 10 ^ k))

/-- A rational has a finite decimal expansion (equivalently, its reduced
denominator is of the form 2^a * 5^b).  Every JS number satisfies this. -/
def DecFriendly (q : ℚ) : Prop := q.den ∣ 10 ^ q.den

instance : DecidablePred DecFriendly := fun q => by
  unfold DecFriendly; infer_instance

/-- Model of `Number.prototype.toString` on the rationals: shortest decimal
form when one exists; rationals outside the decimal fragment (unreachable
from JS numbers) fall back to a `num/den` rendering. -/
def jsNumToString (q : ℚ) : String :=
  match (List.range (q.den + 1)).find? (fun k => decide (q.den ∣ 10 ^ k)) with
  | some k =>
    String.mk (renderScaled (decide (q.num < 0)) (q.num.natAbs * (10 ^ k / q.den)) k)
  | none =>
    String.mk ((if q.num < 0 then ['-'] else []) ++
      natToDigits q.num.natAbs ++ '/' :: natToDigits q.den)

/-- Fractional digit block recognised by `parseFloat` after the integer
digits: present only when a dot follows them. -/
def fracOf (cs : List Char) : List Char :=
  let rest := cs.dropWhile isDigitChar
  if rest.head? = some '.' then rest.tail.takeWhile isDigitChar else []

/-- Magnitude recognised by `parseFloat` (no sign): integer digits and an
optional fractional block; 0 when no digit is found (JS: NaN). -/
def parseMag (cs : List Char) : ℚ :=
  let ds := cs.takeWhile isDigitChar
  let fs := fracOf cs
  if ds.isEmpty && fs.isEmpty then 0
  else mkRat (↑(digitsToNat ds * 10 ^ fs.length + digitsToNat fs)) (10 ^ fs.length)

/-- Sign handling of `parseFloat`. -/
def parseChars (cs : List Char) : ℚ :=
  if cs.head? = some '-' then -(parseMag cs.tail) else parseMag cs

/-- Model of the global `parseFloat` on the strings the program feeds it. -/
def jsParseFloat (s : String) : ℚ := parseChars s.data

/-! ### Data model (services/sneaker.service.ts, services/auth.service.ts) -/

/-- The `Sneaker` interface. -/
structure Sneaker where
  id : ℕ
  sku : String
  brand : String
  model : String
  size : ℚ
  color : Option String
  purchase_price : Option ℚ
  description : Option String
  user_id : ℕ
  created_at : String
  updated_at : Option String
deriving DecidableEq

/-- The `SneakerCreate` payload, as built by the inventory submit handler. -/
structure SneakerCreate where
  sku : String
  brand : String
  model : String
  size : ℚ
  color : Option String
  purchase_price : Option ℚ
  description : Option String
deriving DecidableEq

/-- The `SneakerUpdate` payload, as built by the detail submit handler.
The interface declares every field optional, but the handler always sends
sku, brand, model and size, so those are required here. -/
structure SneakerUpdate where
  sku : String
  brand : String
  model : String
  size : ℚ
  color : Option String
  purchase_price : Option ℚ
  description : Option String
deriving DecidableEq

/-- The `User` interface of auth.service.ts. -/
structure User where
  id : ℕ
  email : String
  username : String
  first_name : String
  middle_name : Option String
  last_name : String
deriving DecidableEq

/-! ### Shared form model

Both components declare the same `FormGroup`: three required strings, a
required size with a min-0 validator, an optional color and description,
and a price with a min-0 validator.  Nullable numeric controls hold
`Option ℚ`; nonNullable string controls hold `String`. -/

/-- The reactive form of both the create form (inventory.component.ts) and
the edit form (sneaker-detail.component.ts). -/
structure SneakerForm where
  sku : String
  brand : String
  model : String
  size : Option ℚ
  color : String
  purchase_price : Option ℚ
  description : String
deriving DecidableEq

/-- `Validators.required` on a nonNullable string control. -/
def requiredValid (s : String) : Bool := !(s == "")

/-- `Validators.required` plus `Validators.min(0)` on a nullable numeric
control (the size field). -/
def minZeroRequired (v : Option ℚ) : Bool :=
  match v with
  | some x => decide (0 ≤ x)
  | none => false

/-- `Validators.min(0)` alone on a nullable numeric control (the price
field); Angular min() passes on a null value. -/
def minZeroOptional (v : Option ℚ) : Bool :=
  match v with
  | some x => decide (0 ≤ x)
  | none => true

/-- Validity of the form group. -/
def formValid (f : SneakerForm) : Bool :=
  requiredValid f.sku && requiredValid f.brand && requiredValid f.model &&
    minZeroRequired f.size && minZeroOptional f.purchase_price

/-- The initial (and reset) value of the form group. -/
def emptyForm : SneakerForm :=
  { sku := "", brand := "", model := "", size := none, color := "",
    purchase_price := none, description := "" }

/-- JS `x || undefined` on a string: the empty string is falsy. -/
def jsStrOrUndef (s : String) : Option String :=
  if s = "" then none else some s

/-- JS `x || undefined` (and `x || null`) on a nullable number: both
null/undefined and 0 are falsy, so a 0 value is dropped. -/
def jsNumOrUndef (v : Option ℚ) : Option ℚ :=
  match v with
  | some x => if x = 0 then none else some x
  | none => none

/-! ### SneakerService (services/sneaker.service.ts) -/

/-- JS truthiness of a number (ids are integers; NaN does not arise). -/
def jsNumTruthy (i : ℤ) : Bool := !(i == 0)

/-- URL built by `getSneakers(userId?)`: the base URL, with a `user_id`
query parameter appended only when `userId` is truthy. -/
def getSneakersUrl (apiUrl : String) (userId : Option ℤ) : String :=
  match userId with
  | some uid => if jsNumTruthy uid then apiUrl ++ "?user_id=" ++ toString uid else apiUrl
  | none => apiUrl

/-! ### AuthService state and logout (services/auth.service.ts) -/

/-- The two localStorage keys the service touches. -/
structure BrowserStorage where
  access_token : Option String
  currentUser : Option String
deriving DecidableEq

/-- Auth service state: durable storage plus the in-memory
`currentUserSubject` cell. -/
structure AuthState where
  storage : BrowserStorage
  currentUserSubject : Option User
deriving DecidableEq

/-- The `currentUserValue` getter: synchronous read of the subject. -/
def currentUserValue (s : AuthState) : Option User := s.currentUserSubject

/-- `logout()`: removes both persisted keys and nulls the subject.  The
second component is the list of HTTP requests issued (none). -/
def logout (s : AuthState) : AuthState × List String :=
  ({ s with
      storage := { s.storage with access_token := none, currentUser := none },
      currentUserSubject := none }, [])

/-! ### Inventory component state (inventory/inventory.component.ts) -/

/-- The signal cells of InventoryComponent, plus the form and its
disabled flag. -/
structure InvState where
  sneakers : List Sneaker
  isLoading : Bool
  searchText : String
  selectedBrand : String
  selectedSize : String
  form : SneakerForm
  formDisabled : Bool
deriving DecidableEq

/-- The search predicate of the `filteredSneakers` computed value, applied
with the already-lowercased query: brand, model or sku substring match, or
a color match guarded by color truthiness. -/
def searchMatches (search : String) (s : Sneaker) : Bool :=
  jsIncludes (jsToLower s.brand) search ||
  jsIncludes (jsToLower s.model) search ||
  jsIncludes (jsToLower s.sku) search ||
  (match s.color with
   | some c => if c = "" then false else jsIncludes (jsToLower c) search
   | none => false)

/-- The `filteredSneakers` computed value: three conditional filter
stages, in source order (search, then brand, then size). -/
def filteredSneakers (sneakers : List Sneaker)
    (searchText selectedBrand selectedSize : String) : List Sneaker :=
  let search := jsToLower searchText
  let f1 := if search = "" then sneakers else sneakers.filter (searchMatches search)
  let f2 := if selectedBrand = "" then f1 else f1.filter (fun s => s.brand == selectedBrand)
  let f3 := if selectedSize = "" then f2
    else f2.filter (fun s => jsNumToString s.size == selectedSize)
  f3

/-- First-occurrence deduplication with an accumulator: the iteration
order of a JS `Set` built from a list. -/
def jsSetAux (seen : List String) : List String → List String
  | [] => []
  | x :: xs => if x ∈ seen then jsSetAux seen xs else x :: jsSetAux (x :: seen) xs

/-- Model of `Array.from(new Set(l))`. -/
def jsSetOfList (l : List String) : List String := jsSetAux [] l

/-- The comparator `(a, b) => parseFloat(a) - parseFloat(b)` as an order
relation. -/
def sizeLe (a b : String) : Prop := jsParseFloat a ≤ jsParseFloat b

instance : DecidableRel sizeLe := fun a b => by
  unfold sizeLe; infer_instance

instance : IsTotal String sizeLe :=
  ⟨fun a b => le_total (jsParseFloat a) (jsParseFloat b)⟩

instance : IsTrans String sizeLe :=
  ⟨fun _ _ _ h1 h2 => le_trans h1 h2⟩

/-- The strict version of `sizeLe`, used to pin down sorted lists with
pairwise-distinct keys. -/
def sizeLt (a b : String) : Prop := jsParseFloat a < jsParseFloat b

/-- The `availableSizes` computed value: distinct size strings, sorted by
the parseFloat comparator (stable sort). -/
def availableSizes (items : List Sneaker) : List String :=
  List.insertionSort sizeLe (jsSetOfList (items.map (fun s => jsNumToString s.size)))

/-- Payload built by the inventory submit handler from the raw form value
(`size!` is the non-null assertion; a valid form has a size). -/
def createFromForm (f : SneakerForm) : SneakerCreate :=
  { sku := f.sku, brand := f.brand, model := f.model,
    size := f.size.getD 0,
    color := jsStrOrUndef f.color,
    purchase_price := jsNumOrUndef f.purchase_price,
    description := jsStrOrUndef f.description }

/-- `onSubmit()` of InventoryComponent, synchronous part: guarded by form
validity and the `isLoading` flag; when it proceeds it sets the flag,
disables the form and issues the create request. -/
def invOnSubmit (s : InvState) : InvState × Option SneakerCreate :=
  if formValid s.form && !s.isLoading then
    ({ s with isLoading := true, formDisabled := true }, some (createFromForm s.form))
  else (s, none)

/-- The subscribe `next` callback of the create request: append, reset,
enable, clear the flag. -/
def invSubmitNext (created : Sneaker) (s : InvState) : InvState :=
  { s with sneakers := s.sneakers ++ [created], form := emptyForm,
           formDisabled := false, isLoading := false }

/-- The subscribe `error` callback of the create request: log, enable,
clear the flag. -/
def invSubmitError (s : InvState) : InvState :=
  { s with formDisabled := false, isLoading := false }

/-- `loadSneakers()`, synchronous part: reads `currentUserValue`; with no
user nothing happens; with a user the list request is issued carrying the
user id. -/
def loadSneakers (user : Option User) (s : InvState) : InvState × Option ℕ :=
  match user with
  | some u => (s, some u.id)
  | none => (s, none)

/-- The subscribe `next` callback of the list request: wholesale
replacement of the sneakers cell. -/
def loadSneakersNext (data : List Sneaker) (s : InvState) : InvState :=
  { s with sneakers := data }

/-- The subscribe `error` callback of the list request: log only. -/
def loadSneakersError (s : InvState) : InvState := s

/-- `clearFilters()`: reset the three filter cells. -/
def clearFilters (s : InvState) : InvState :=
  { s with searchText := "", selectedBrand := "", selectedSize := "" }

/-! ### Detail component state (sneaker-detail/sneaker-detail.component.ts) -/

/-- The signal cells of SneakerDetailComponent, plus the edit form and its
disabled flag. -/
structure DetState where
  sneaker : Option Sneaker
  isLoading : Bool
  isEditing : Bool
  editForm : SneakerForm
  formDisabled : Bool
deriving DecidableEq

/-- `populateForm(sneaker)`: patchValue with all seven fields, so the
resulting form is a function of the sneaker alone.  Falsy color,
purchase_price and description collapse to the empty string / null. -/
def populateForm (sn : Sneaker) : SneakerForm :=
  { sku := sn.sku, brand := sn.brand, model := sn.model,
    size := some sn.size,
    color := sn.color.getD "",
    purchase_price := jsNumOrUndef sn.purchase_price,
    description := sn.description.getD "" }

/-- `toggleEdit()`: flip the flag; when the flip lands in view mode and a
sneaker is loaded, repopulate the form from it. -/
def toggleEdit (s : DetState) : DetState :=
  let s1 : DetState := { s with isEditing := !s.isEditing }
  if s1.isEditing = false then
    match s1.sneaker with
    | some sn => { s1 with editForm := populateForm sn }
    | none => s1
  else s1

/-- Payload built by the detail submit handler from the raw form value. -/
def updateFromForm (f : SneakerForm) : SneakerUpdate :=
  { sku := f.sku, brand := f.brand, model := f.model,
    size := f.size.getD 0,
    color := jsStrOrUndef f.color,
    purchase_price := jsNumOrUndef f.purchase_price,
    description := jsStrOrUndef f.description }

/-- `onSubmit()` of SneakerDetailComponent, synchronous part: guarded by
form validity, a loaded sneaker, and the `isLoading` flag; when it
proceeds it sets the flag, disables the form and issues the update
request for the loaded id. -/
def detOnSubmit (s : DetState) : DetState × Option (ℕ × SneakerUpdate) :=
  match s.sneaker with
  | some sn =>
    if formValid s.editForm && !s.isLoading then
      ({ s with isLoading := true, formDisabled := true },
        some (sn.id, updateFromForm s.editForm))
    else (s, none)
  | none => (s, none)

/-! ### Claim-side predicates (worded from the specification, for the
refinement statement of C1) -/

/-- Spec wording of the search criterion: the lowercased query is a
substring of the lowercased brand, model, sku or color (an absent color is
an empty string, which a non-empty query never matches). -/
def specSearch (st : String) (s : Sneaker) : Bool :=
  jsIncludes (jsToLower s.brand) (jsToLower st) ||
  jsIncludes (jsToLower s.model) (jsToLower st) ||
  jsIncludes (jsToLower s.sku) (jsToLower st) ||
  jsIncludes (jsToLower (s.color.getD "")) (jsToLower st)

/-- Spec wording of the combined filter: the three criteria, each applied
only when its cell is non-empty, composed with logical AND. -/
def specKeep (st sb ss : String) (s : Sneaker) : Bool :=
  (if st = "" then true else specSearch st s) &&
  (if sb = "" then true else s.brand == sb) &&
  (if ss = "" then true else jsNumToString s.size == ss)

/-! ### Concrete sample data for the witness theorems -/

/-- A sample item (the one from the spec example), parameterised by id and
size. -/
def wSneaker (i : ℕ) (sz : ℚ) : Sneaker :=
  { id := i, sku := "NK-001", brand := "Nike", model := "Air Max",
    size := sz, color := some "Red", purchase_price := some (mkRat 120 1),
    description := none, user_id := 7, created_at := "2024-01-01",
    updated_at := none }

/-- Sample inventory with sizes 9, 10 and 8.5 (the spec example). -/
def wItems1 : List Sneaker :=
  [wSneaker 1 (mkRat 9 1), wSneaker 2 (mkRat 10 1), wSneaker 3 (mkRat 17 2)]

/-- The same inventory in a different insertion order. -/
def wItems2 : List Sneaker :=
  [wSneaker 3 (mkRat 17 2), wSneaker 1 (mkRat 9 1), wSneaker 2 (mkRat 10 1)]

/-- A valid form whose price is 0. -/
def wValidZeroForm : SneakerForm :=
  { sku := "NK-001", brand := "Nike", model := "Air Max",
    size := some (mkRat 9 1), color := "", purchase_price := some 0,
    description := "" }

/-- An inventory state with a request in flight. -/
def wInvLoading : InvState :=
  { sneakers := [], isLoading := true, searchText := "",
    selectedBrand := "", selectedSize := "", form := emptyForm,
    formDisabled := true }

/-- An idle inventory state holding a valid zero-price form. -/
def wInvReady : InvState :=
  { wInvLoading with isLoading := false, form := wValidZeroForm,
                     formDisabled := false }

/-- An idle detail state in view mode with a loaded sneaker. -/
def wDetBase : DetState :=
  { sneaker := some (wSneaker 1 (mkRat 9 1)), isLoading := false,
    isEditing := false, editForm := emptyForm, formDisabled := false }

/-- A detail state with a request in flight. -/
def wDetLoading : DetState := { wDetBase with isLoading := true }

/-- A detail state in edit mode. -/
def wDetEditing : DetState := { wDetBase with isEditing := true }

/-- An idle detail state holding a valid zero-price form. -/
def wDetReady : DetState := { wDetBase with editForm := wValidZeroForm }

/-- A loaded item whose purchase price is 0. -/
def wZeroPriceSneaker : Sneaker :=
  { wSneaker 1 (mkRat 9 1) with purchase_price := some 0 }

/-! ## Theorems -/

theorem jsToLower_empty : jsToLower "" = "" := rfl

theorem eq_empty_of_data_nil {s : String} (h : s.data = []) : s = "" := by
  cases s with
  | mk d =>
    have hd : d = [] := h
    rw [hd]

theorem jsToLower_ne_empty {s : String} (h : s ≠ "") : jsToLower s ≠ "" := by
  intro he
  apply h
  have hd : (s.data.map Char.toLower) = [] := by
    have := congrArg String.data he
    simpa [jsToLower] using this
  exact eq_empty_of_data_nil (List.map_eq_nil_iff.mp hd)

theorem jsIncludes_empty_hay {n : String} (h : n ≠ "") : jsIncludes "" n = false := by
  have hd : n.data ≠ [] := fun hnil => h (eq_empty_of_data_nil hnil)
  unfold jsIncludes hasSub
  cases hn : n.data with
  | nil => exact absurd hn hd
  | cons c t => rfl

theorem searchMatches_eq_spec {st : String} (hst : st ≠ "") (s : Sneaker) :
    searchMatches (jsToLower st) s = specSearch st s := by
  have hempty : jsIncludes (jsToLower "") (jsToLower st) = false := by
    rw [jsToLower_empty]
    exact jsIncludes_empty_hay (jsToLower_ne_empty hst)
  unfold searchMatches specSearch
  cases hc : s.color with
  | none => simp [hempty]
  | some c =>
    by_cases hce : c = ""
    · subst hce
      simp [hempty]
    · simp [hce]

/-- C1: for every item list and filter state, `filteredSneakers` equals the
single filter keeping exactly the items that pass the case-insensitive
search (when the query is non-empty), the exact brand match (when a brand
is selected) and the exact size-string match (when a size is selected),
composed with logical AND. -/
theorem condFilter (c : Prop) [Decidable c] (l : List Sneaker) (p : Sneaker → Bool) :
    (if c then l else l.filter p) = l.filter (fun a => if c then true else p a) := by
  by_cases h : c
  · rw [if_pos h]
    have hp : (fun a : Sneaker => if c then true else p a) = (fun _ : Sneaker => true) := by
      funext a
      rw [if_pos h]
    rw [hp, List.filter_true]
  · rw [if_neg h]
    exact List.filter_congr (fun a _ => (if_neg h).symm)

theorem claim_C1 (items : List Sneaker) (st sb ss : String) :
    filteredSneakers items st sb ss = items.filter (specKeep st sb ss) := by
  simp only [filteredSneakers]
  rw [condFilter, condFilter, condFilter, List.filter_filter, List.filter_filter]
  apply List.filter_congr
  intro a _
  unfold specKeep
  by_cases h1 : st = ""
  · subst h1
    rw [jsToLower_empty]
    simp [Bool.and_comm, Bool.and_left_comm, Bool.and_assoc]
  · rw [if_neg (jsToLower_ne_empty h1), if_neg h1, searchMatches_eq_spec h1]
    simp [Bool.and_comm, Bool.and_left_comm, Bool.and_assoc]

/-- C2: with all three filter cells empty, `filteredSneakers` is the item
list unchanged. -/
theorem claim_C2 (items : List Sneaker) :
    filteredSneakers items "" "" "" = items := rfl

/-- C4: while `isLoading` is true, `onSubmit()` of the inventory view and
`onSubmit()` of the detail view are no-ops: no request is issued and the
state is unchanged. -/
theorem claim_C4 (s : InvState) (t : DetState)
    (hs : s.isLoading = true) (ht : t.isLoading = true) :
    invOnSubmit s = (s, none) ∧ detOnSubmit t = (t, none) := by
  constructor
  · unfold invOnSubmit
    rw [hs]
    simp
  · unfold detOnSubmit
    cases hsn : t.sneaker with
    | none => rfl
    | some sn =>
      rw [ht]
      simp

theorem claim_C4_witness :
    invOnSubmit wInvLoading = (wInvLoading, none) ∧
    detOnSubmit wDetLoading = (wDetLoading, none) :=
  claim_C4 wInvLoading wDetLoading rfl rfl

/-- C5: `loadSneakers()` issues the list request only given a current user
(carrying that user id); the success callback replaces the items wholesale
with the fetched list; the error callback leaves the entire state
unchanged. -/
theorem claim_C5 (s : InvState) (u : User) (d : List Sneaker) :
    loadSneakers (some u) s = (s, some u.id) ∧
    loadSneakersNext d s = { s with sneakers := d } ∧
    loadSneakersError s = s ∧
    loadSneakers none s = (s, none) :=
  ⟨rfl, rfl, rfl, rfl⟩

/-- C6: `logout()` clears both persisted keys and the in-memory session
cell, so `currentUserValue` then reads none; it issues no request and is
idempotent. -/
theorem claim_C6 (s : AuthState) :
    (logout s).1.storage.access_token = none ∧
    (logout s).1.storage.currentUser = none ∧
    currentUserValue (logout s).1 = none ∧
    (logout s).2 = [] ∧
    logout (logout s).1 = logout s :=
  ⟨rfl, rfl, rfl, rfl, rfl⟩

/-- C7: `toggleEdit()` from edit mode with a loaded item leaves edit mode
and restores every form field from that item, discarding edits; from view
mode it enters edit mode and changes nothing else. -/
theorem claim_C7 (s t : DetState) (sn : Sneaker)
    (hs1 : s.isEditing = true) (hs2 : s.sneaker = some sn)
    (ht : t.isEditing = false) :
    toggleEdit s = { s with isEditing := false, editForm := populateForm sn } ∧
    toggleEdit t = { t with isEditing := true } := by
  constructor
  · unfold toggleEdit
    rw [hs1]
    simp [hs2]
  · unfold toggleEdit
    rw [ht]
    simp

theorem claim_C7_witness :
    toggleEdit wDetEditing =
      { wDetEditing with isEditing := false,
                         editForm := populateForm (wSneaker 1 (mkRat 9 1)) } ∧
    toggleEdit wDetBase = { wDetBase with isEditing := true } :=
  claim_C7 wDetEditing wDetBase (wSneaker 1 (mkRat 9 1)) rfl rfl rfl

/-- C9: a valid submission whose price field is 0 produces a payload with
the price omitted, in both the create and the update handler, even though
the min-0 validator accepts 0; and `populateForm` maps a loaded price of 0
to a null form field. -/
theorem claim_C9 (s : InvState) (t : DetState) (sn tsn : Sneaker)
    (h1 : formValid s.form = true) (h2 : s.form.purchase_price = some 0)
    (h3 : s.isLoading = false)
    (h4 : formValid t.editForm = true) (h5 : t.editForm.purchase_price = some 0)
    (h6 : t.isLoading = false) (h7 : t.sneaker = some tsn)
    (h8 : sn.purchase_price = some 0) :
    (∃ p, (invOnSubmit s).2 = some p ∧ p.purchase_price = none) ∧
    (∃ u, (detOnSubmit t).2 = some (tsn.id, u) ∧ u.purchase_price = none) ∧
    (populateForm sn).purchase_price = none ∧
    minZeroOptional (some 0) = true := by
  refine ⟨⟨createFromForm s.form, ?_, ?_⟩, ⟨updateFromForm t.editForm, ?_, ?_⟩, ?_, ?_⟩
  · unfold invOnSubmit
    rw [h1, h3]
    simp
  · simp [createFromForm, jsNumOrUndef, h2]
  · unfold detOnSubmit
    rw [h7, h4, h6]
    simp
  · simp [updateFromForm, jsNumOrUndef, h5]
  · simp [populateForm, jsNumOrUndef, h8]
  · rfl

theorem claim_C9_witness :
    ((∃ p, (invOnSubmit wInvReady).2 = some p ∧ p.purchase_price = none) ∧
     (∃ u, (detOnSubmit wDetReady).2 = some ((wSneaker 1 (mkRat 9 1)).id, u) ∧
       u.purchase_price = none) ∧
     (populateForm wZeroPriceSneaker).purchase_price = none ∧
     minZeroOptional (some 0) = true) :=
  claim_C9 wInvReady wDetReady wZeroPriceSneaker (wSneaker 1 (mkRat 9 1))
    (by decide) (by decide) rfl (by decide) (by decide) rfl rfl (by decide)

/-- C10: with no current user, `loadSneakers()` issues no request and
changes no state cell. -/
theorem claim_C10 (s : InvState) : loadSneakers none s = (s, none) := rfl

theorem leadsWith_refl_append (n t : List Char) : leadsWith n (n ++ t) = true := by
  induction n with
  | nil => rfl
  | cons a as ih => simp [leadsWith, ih]

theorem hasSub_append_left (l1 l2 n : List Char) (h : hasSub l2 n = true) :
    hasSub (l1 ++ l2) n = true := by
  induction l1 with
  | nil => simpa using h
  | cons c t ih => simp [hasSub, ih]

theorem hasSub_nil_needle (t : List Char) : hasSub t [] = true := by
  induction t with
  | nil => rfl
  | cons c cs ih => simp [hasSub, leadsWith]

theorem hasSub_cons_of (c : Char) (l n : List Char) (h : hasSub l n = true) :
    hasSub (c :: l) n = true := by
  show (leadsWith n (c :: l) || hasSub l n) = true
  rw [h]
  simp

theorem hasSub_self_append (n t : List Char) : hasSub (n ++ t) n = true := by
  cases n with
  | nil => exact hasSub_nil_needle t
  | cons c cs =>
    rw [List.cons_append]
    show (leadsWith (c :: cs) (c :: (cs ++ t)) || hasSub (cs ++ t) (c :: cs)) = true
    have h := leadsWith_refl_append (c :: cs) t
    rw [List.cons_append] at h
    rw [h]
    simp

theorem jsIncludes_param (a t : String) :
    jsIncludes (a ++ "?user_id=" ++ t) "user_id=" = true := by
  unfold jsIncludes
  have hdata : (a ++ "?user_id=" ++ t).data =
      a.data ++ ('?' :: (("user_id=" : String).data ++ t.data)) := by
    simp [String.data_append]
  rw [hdata]
  exact hasSub_append_left _ _ _
    (hasSub_cons_of _ _ _ (hasSub_self_append ("user_id=" : String).data t.data))

/-- C8: the URL built by `getSneakers(userId)` carries a `user_id` query
parameter exactly when the argument is truthy; an id of 0, like an absent
argument, yields the plain unfiltered URL. -/
theorem claim_C8 (apiUrl : String) (userId : Option ℤ)
    (hclean : jsIncludes apiUrl "user_id=" = false) :
    (jsIncludes (getSneakersUrl apiUrl userId) "user_id=" = true ↔
      (∃ uid, userId = some uid ∧ uid ≠ 0)) ∧
    getSneakersUrl apiUrl (some 0) = apiUrl ∧
    getSneakersUrl apiUrl none = apiUrl := by
  refine ⟨?_, rfl, rfl⟩
  cases userId with
  | none =>
    rw [show getSneakersUrl apiUrl none = apiUrl from rfl, hclean]
    constructor
    · intro h
      exact (Bool.false_ne_true h).elim
    · rintro ⟨uid, huid, _⟩
      cases huid
  | some uid =>
    by_cases h0 : uid = 0
    · subst h0
      rw [show getSneakersUrl apiUrl (some 0) = apiUrl from rfl, hclean]
      constructor
      · intro h
        exact (Bool.false_ne_true h).elim
      · rintro ⟨uid, huid, hne⟩
        cases huid
        exact absurd rfl hne
    · have htru : jsNumTruthy uid = true := by
        simp [jsNumTruthy, h0]
      have hurl : getSneakersUrl apiUrl (some uid) =
          apiUrl ++ "?user_id=" ++ toString uid := by
        show (if jsNumTruthy uid = true then apiUrl ++ "?user_id=" ++ toString uid
          else apiUrl) = apiUrl ++ "?user_id=" ++ toString uid
        rw [htru]
        simp
      rw [hurl]
      constructor
      · intro _
        exact ⟨uid, rfl, h0⟩
      · intro _
        exact jsIncludes_param apiUrl (toString uid)

theorem claim_C8_witness :
    (jsIncludes (getSneakersUrl "http://localhost:8000/api/sneakers" (some 7))
        "user_id=" = true ↔ (∃ uid, (some 7 : Option ℤ) = some uid ∧ uid ≠ 0)) ∧
    getSneakersUrl "http://localhost:8000/api/sneakers" (some 0) =
      "http://localhost:8000/api/sneakers" ∧
    getSneakersUrl "http://localhost:8000/api/sneakers" none =
      "http://localhost:8000/api/sneakers" :=
  claim_C8 "http://localhost:8000/api/sneakers" (some 7) (by decide)

/-! ### Digit rendering and parsing lemmas (towards C3) -/

theorem charVal_ofNat {d : ℕ} (h : d < 10) : charVal (Char.ofNat (48 + d)) = d := by
  interval_cases d <;> decide

theorem isDigitChar_ofNat {d : ℕ} (h : d < 10) :
    isDigitChar (Char.ofNat (48 + d)) = true := by
  interval_cases d <;> decide

theorem digitsToNat_append_singleton (l : List Char) (c : Char) :
    digitsToNat (l ++ [c]) = 10 * digitsToNat l + charVal c := by
  unfold digitsToNat
  rw [List.foldl_append]
  rfl

theorem digitsAux_sound :
    ∀ fuel n : ℕ, n < fuel → digitsToNat (natToDigitsAux fuel n) = n := by
  intro fuel
  induction fuel with
  | zero => exact fun n h => absurd h (Nat.not_lt_zero n)
  | succ fuel ih =>
    intro n h
    by_cases h10 : n < 10
    · show digitsToNat (if n < 10 then [Char.ofNat (48 + n)]
        else natToDigitsAux fuel (n / 10) ++ [Char.ofNat (48 + n % 10)]) = n
      rw [if_pos h10]
      show 10 * 0 + charVal (Char.ofNat (48 + n)) = n
      rw [charVal_ofNat h10]
      omega
    · show digitsToNat (if n < 10 then [Char.ofNat (48 + n)]
        else natToDigitsAux fuel (n / 10) ++ [Char.ofNat (48 + n % 10)]) = n
      rw [if_neg h10]
      rw [digitsToNat_append_singleton]
      have hdiv : n / 10 < fuel := by
        have : n / 10 < n := Nat.div_lt_self (by omega) (by omega)
        omega
      rw [ih (n / 10) hdiv, charVal_ofNat (Nat.mod_lt n (by omega))]
      omega

theorem digitsAux_all_digit :
    ∀ fuel n : ℕ, n < fuel → ∀ c ∈ natToDigitsAux fuel n, isDigitChar c = true := by
  intro fuel
  induction fuel with
  | zero => exact fun n h => absurd h (Nat.not_lt_zero n)
  | succ fuel ih =>
    intro n h c hc
    by_cases h10 : n < 10
    · rw [show natToDigitsAux (fuel + 1) n = if n < 10 then [Char.ofNat (48 + n)]
        else natToDigitsAux fuel (n / 10) ++ [Char.ofNat (48 + n % 10)] from rfl,
        if_pos h10] at hc
      rw [List.mem_singleton.mp hc]
      exact isDigitChar_ofNat h10
    · rw [show natToDigitsAux (fuel + 1) n = if n < 10 then [Char.ofNat (48 + n)]
        else natToDigitsAux fuel (n / 10) ++ [Char.ofNat (48 + n % 10)] from rfl,
        if_neg h10] at hc
      rcases List.mem_append.mp hc with hmem | hmem
      · have hdiv : n / 10 < fuel := by
          have : n / 10 < n := Nat.div_lt_self (by omega) (by omega)
          omega
        exact ih (n / 10) hdiv c hmem
      · rw [List.mem_singleton.mp hmem]
        exact isDigitChar_ofNat (Nat.mod_lt n (by omega))

theorem digitsAux_ne_nil :
    ∀ fuel n : ℕ, n < fuel → natToDigitsAux fuel n ≠ [] := by
  intro fuel
  induction fuel with
  | zero => exact fun n h => absurd h (Nat.not_lt_zero n)
  | succ fuel _ =>
    intro n _
    show (if n < 10 then [Char.ofNat (48 + n)]
      else natToDigitsAux fuel (n / 10) ++ [Char.ofNat (48 + n % 10)]) ≠ []
    by_cases h10 : n < 10
    · rw [if_pos h10]
      simp
    · rw [if_neg h10]
      simp

theorem digitsAux_length_le :
    ∀ fuel k n : ℕ, n < fuel → n < 10 ^ k → 1 ≤ k →
      (natToDigitsAux fuel n).length ≤ k := by
  intro fuel
  induction fuel with
  | zero => exact fun k n h => absurd h (Nat.not_lt_zero n)
  | succ fuel ih =>
    intro k n h hk hk1
    by_cases h10 : n < 10
    · show (if n < 10 then [Char.ofNat (48 + n)]
        else natToDigitsAux fuel (n / 10) ++ [Char.ofNat (48 + n % 10)]).length ≤ k
      rw [if_pos h10]
      simpa using hk1
    · show (if n < 10 then [Char.ofNat (48 + n)]
        else natToDigitsAux fuel (n / 10) ++ [Char.ofNat (48 + n % 10)]).length ≤ k
      rw [if_neg h10]
      rw [List.length_append]
      have hk2 : 2 ≤ k := by
        by_contra hlt
        have hk1' : k = 1 := by omega
        rw [hk1'] at hk
        simp at hk
        omega
      obtain ⟨k', rfl⟩ : ∃ k', k = k' + 1 := ⟨k - 1, by omega⟩
      have hdiv : n / 10 < fuel := by
        have : n / 10 < n := Nat.div_lt_self (by omega) (by omega)
        omega
      have hdivpow : n / 10 < 10 ^ k' := by
        rw [Nat.div_lt_iff_lt_mul (by omega : 0 < 10)]
        calc n < 10 ^ (k' + 1) := hk
        _ = 10 ^ k' * 10 := by rw [pow_succ]
      have := ih k' (n / 10) hdiv hdivpow (by omega)
      simp only [List.length_singleton]
      omega

theorem natToDigits_sound (n : ℕ) : digitsToNat (natToDigits n) = n :=
  digitsAux_sound (n + 1) n (Nat.lt_succ_self n)

theorem natToDigits_all_digit (n : ℕ) :
    ∀ c ∈ natToDigits n, isDigitChar c = true :=
  digitsAux_all_digit (n + 1) n (Nat.lt_succ_self n)

theorem natToDigits_ne_nil (n : ℕ) : natToDigits n ≠ [] :=
  digitsAux_ne_nil (n + 1) n (Nat.lt_succ_self n)

theorem natToDigits_length_le {n k : ℕ} (hk : n < 10 ^ k) (h1 : 1 ≤ k) :
    (natToDigits n).length ≤ k :=
  digitsAux_length_le (n + 1) k n (Nat.lt_succ_self n) hk h1

theorem foldl_digits_replicate_zero (z : ℕ) :
    (List.replicate z '0').foldl (fun acc c => 10 * acc + charVal c) 0 = 0 := by
  induction z with
  | zero => rfl
  | succ z ih =>
    rw [List.replicate_succ, List.foldl_cons]
    have h0 : (10 * 0 + charVal '0') = 0 := by decide
    rw [h0]
    exact ih

theorem digitsToNat_replicate_append (z : ℕ) (l : List Char) :
    digitsToNat (List.replicate z '0' ++ l) = digitsToNat l := by
  unfold digitsToNat
  rw [List.foldl_append, foldl_digits_replicate_zero]

theorem fracChars_length {k fp : ℕ} (hfp : fp < 10 ^ k) (hk : 1 ≤ k) :
    (fracChars k fp).length = k := by
  unfold fracChars
  rw [List.length_append, List.length_replicate]
  have := natToDigits_length_le hfp hk
  omega

theorem fracChars_sound (k fp : ℕ) : digitsToNat (fracChars k fp) = fp := by
  unfold fracChars
  rw [digitsToNat_replicate_append, natToDigits_sound]

theorem fracChars_all_digit (k fp : ℕ) :
    ∀ c ∈ fracChars k fp, isDigitChar c = true := by
  intro c hc
  rcases List.mem_append.mp hc with hmem | hmem
  · rw [List.eq_of_mem_replicate hmem]
    decide
  · exact natToDigits_all_digit fp c hmem

theorem takeWhile_append_all {p : Char → Bool} :
    ∀ {l1 : List Char} (l2 : List Char), (∀ c ∈ l1, p c = true) →
      (l1 ++ l2).takeWhile p = l1 ++ l2.takeWhile p := by
  intro l1
  induction l1 with
  | nil => intro l2 _; rfl
  | cons c t ih =>
    intro l2 h
    rw [List.cons_append]
    have hc : p c = true := h c (List.mem_cons_self c t)
    simp only [List.takeWhile_cons, hc, if_true]
    rw [ih l2 (fun x hx => h x (List.mem_cons_of_mem c hx))]
    rfl

theorem dropWhile_append_all {p : Char → Bool} :
    ∀ {l1 : List Char} (l2 : List Char), (∀ c ∈ l1, p c = true) →
      (l1 ++ l2).dropWhile p = l2.dropWhile p := by
  intro l1
  induction l1 with
  | nil => intro l2 _; rfl
  | cons c t ih =>
    intro l2 h
    rw [List.cons_append]
    have hc : p c = true := h c (List.mem_cons_self c t)
    simp only [List.dropWhile_cons, hc, if_true]
    exact ih l2 (fun x hx => h x (List.mem_cons_of_mem c hx))

theorem takeWhile_all {p : Char → Bool} {l : List Char}
    (h : ∀ c ∈ l, p c = true) : l.takeWhile p = l := by
  have := @takeWhile_append_all p l [] h
  simpa using this

theorem dropWhile_all {p : Char → Bool} {l : List Char}
    (h : ∀ c ∈ l, p c = true) : l.dropWhile p = [] := by
  have := @dropWhile_append_all p l [] h
  simpa using this

theorem parseMag_int {ds : List Char} (hne : ds ≠ [])
    (hall : ∀ c ∈ ds, isDigitChar c = true) :
    parseMag ds = mkRat (digitsToNat ds) 1 := by
  unfold parseMag fracOf
  rw [takeWhile_all hall, dropWhile_all hall]
  have hempty : ds.isEmpty = false := by
    cases ds with
    | nil => exact absurd rfl hne
    | cons c t => rfl
  simp [hempty, show digitsToNat [] = 0 from rfl]

theorem parseMag_frac {ds : List Char} (fs : List Char) (hne : ds ≠ [])
    (hds : ∀ c ∈ ds, isDigitChar c = true)
    (hfs : ∀ c ∈ fs, isDigitChar c = true) :
    parseMag (ds ++ '.' :: fs) =
      mkRat (digitsToNat ds * 10 ^ fs.length + digitsToNat fs) (10 ^ fs.length) := by
  unfold parseMag fracOf
  have hdot : isDigitChar '.' = false := by decide
  rw [takeWhile_append_all _ hds, dropWhile_append_all _ hds]
  have hempty : ds.isEmpty = false := by
    cases ds with
    | nil => exact absurd rfl hne
    | cons c t => rfl
  simp [List.takeWhile_cons, List.dropWhile_cons, hdot, hempty, takeWhile_all hfs]

theorem digit_head_ne_dash {c : Char} (h : isDigitChar c = true) : ¬ c = '-' := by
  intro he
  subst he
  exact absurd h (by decide)

theorem parseMag_body (n k : ℕ) :
    parseMag (natToDigits (n / 10 ^ k) ++
      (if k = 0 then [] else '.' :: fracChars k (n % 10 ^ k))) =
      mkRat (n : ℤ) (10 ^ k) := by
  by_cases hk : k = 0
  · subst hk
    rw [if_pos rfl, List.append_nil]
    rw [parseMag_int (natToDigits_ne_nil _) (natToDigits_all_digit _)]
    rw [natToDigits_sound]
    norm_num
  · rw [if_neg hk]
    rw [parseMag_frac _ (natToDigits_ne_nil _) (natToDigits_all_digit _)
      (fracChars_all_digit _ _)]
    have hk1 : 1 ≤ k := by omega
    have hfp : n % 10 ^ k < 10 ^ k := Nat.mod_lt _ (by positivity)
    rw [fracChars_length hfp hk1, fracChars_sound, natToDigits_sound]
    have hsplit : n / 10 ^ k * 10 ^ k + n % 10 ^ k = n := by
      rw [Nat.mul_comm]
      exact Nat.div_add_mod n (10 ^ k)
    congr 1
    exact_mod_cast hsplit

theorem parseChars_renderScaled (neg : Bool) (n k : ℕ) :
    parseChars (renderScaled neg n k) =
      (if neg then -(mkRat (n : ℤ) (10 ^ k)) else mkRat (n : ℤ) (10 ^ k)) := by
  unfold renderScaled
  cases neg with
  | true =>
    show parseChars (['-'] ++ natToDigits (n / 10 ^ k) ++
      (if k = 0 then [] else '.' :: fracChars k (n % 10 ^ k))) =
      -(mkRat (n : ℤ) (10 ^ k))
    rw [List.singleton_append, List.cons_append]
    unfold parseChars
    rw [List.head?_cons, if_pos rfl, List.tail_cons]
    rw [parseMag_body]
  | false =>
    show parseChars ([] ++ natToDigits (n / 10 ^ k) ++
      (if k = 0 then [] else '.' :: fracChars k (n % 10 ^ k))) =
      mkRat (n : ℤ) (10 ^ k)
    rw [List.nil_append]
    obtain ⟨c, cs, hcons⟩ := List.exists_cons_of_ne_nil (natToDigits_ne_nil (n / 10 ^ k))
    have hcdig : isDigitChar c = true := by
      apply natToDigits_all_digit (n / 10 ^ k)
      rw [hcons]
      exact List.mem_cons_self c cs
    unfold parseChars
    rw [hcons, List.cons_append, List.head?_cons]
    rw [if_neg (fun h => digit_head_ne_dash hcdig (Option.some.inj h))]
    rw [← List.cons_append, ← hcons]
    exact parseMag_body n k

theorem jsParseFloat_jsNumToString {q : ℚ} (hq : DecFriendly q) :
    jsParseFloat (jsNumToString q) = q := by
  unfold jsNumToString
  cases hfind : (List.range (q.den + 1)).find? (fun k => decide (q.den ∣ 10 ^ k)) with
  | none =>
    exfalso
    have hmem : q.den ∈ List.range (q.den + 1) := List.mem_range.mpr (Nat.lt_succ_self _)
    exact (List.find?_eq_none.mp hfind q.den hmem) (decide_eq_true hq)
  | some k =>
    have hfs := List.find?_some hfind
    have hk : q.den ∣ 10 ^ k := of_decide_eq_true (by simpa using hfs)
    show parseChars (renderScaled (decide (q.num < 0))
      (q.num.natAbs * (10 ^ k / q.den)) k) = q
    rw [parseChars_renderScaled]
    set c := 10 ^ k / q.den with hc_def
    have hc : q.den * c = 10 ^ k := by
      rw [hc_def]
      exact Nat.mul_div_cancel' hk
    have hc0 : c ≠ 0 := by
      intro h0
      rw [h0, Nat.mul_zero] at hc
      have hpos : 0 < 10 ^ k := pow_pos (by omega) k
      omega
    have hmk : mkRat (↑(q.num.natAbs * c)) (10 ^ k) = mkRat (↑q.num.natAbs) q.den := by
      rw [← hc]
      push_cast
      exact Rat.mkRat_mul_right hc0
    by_cases hneg : q.num < 0
    · rw [if_pos (by simpa using hneg), hmk, Rat.neg_mkRat]
      have habs : -(q.num.natAbs : ℤ) = q.num := by omega
      rw [habs, Rat.mkRat_self]
    · rw [if_neg (by simpa using hneg), hmk]
      have habs : (q.num.natAbs : ℤ) = q.num := by omega
      rw [habs, Rat.mkRat_self]

theorem mem_jsSetAux :
    ∀ (l seen : List String) (a : String),
      a ∈ jsSetAux seen l ↔ (a ∈ l ∧ a ∉ seen) := by
  intro l
  induction l with
  | nil =>
    intro seen a
    simp [jsSetAux]
  | cons x xs ih =>
    intro seen a
    rw [show jsSetAux seen (x :: xs) = (if x ∈ seen then jsSetAux seen xs
      else x :: jsSetAux (x :: seen) xs) from rfl]
    by_cases hx : x ∈ seen
    · rw [if_pos hx, ih]
      constructor
      · rintro ⟨ha, hns⟩
        exact ⟨List.mem_cons_of_mem x ha, hns⟩
      · rintro ⟨ha, hns⟩
        rcases List.mem_cons.mp ha with rfl | ha2
        · exact absurd hx hns
        · exact ⟨ha2, hns⟩
    · rw [if_neg hx]
      constructor
      · intro hmem
        rcases List.mem_cons.mp hmem with rfl | h2
        · exact ⟨List.mem_cons_self a xs, hx⟩
        · have h3 := (ih (x :: seen) a).mp h2
          exact ⟨List.mem_cons_of_mem x h3.1,
            fun hs => h3.2 (List.mem_cons_of_mem x hs)⟩
      · rintro ⟨ha, hns⟩
        rcases List.mem_cons.mp ha with rfl | h2
        · exact List.mem_cons_self a _
        · by_cases hax : a = x
          · subst hax
            exact List.mem_cons_self a _
          · apply List.mem_cons_of_mem
            refine (ih (x :: seen) a).mpr ⟨h2, fun hin => ?_⟩
            rcases List.mem_cons.mp hin with h | h
            · exact hax h
            · exact hns h

theorem nodup_jsSetAux : ∀ (l seen : List String), (jsSetAux seen l).Nodup := by
  intro l
  induction l with
  | nil =>
    intro seen
    exact List.nodup_nil
  | cons x xs ih =>
    intro seen
    rw [show jsSetAux seen (x :: xs) = (if x ∈ seen then jsSetAux seen xs
      else x :: jsSetAux (x :: seen) xs) from rfl]
    by_cases hx : x ∈ seen
    · rw [if_pos hx]
      exact ih seen
    · rw [if_neg hx]
      refine List.Nodup.cons ?_ (ih (x :: seen))
      intro hmem
      exact ((mem_jsSetAux xs (x :: seen) x).mp hmem).2 (List.mem_cons_self x seen)

theorem mem_jsSetOfList (l : List String) (a : String) :
    a ∈ jsSetOfList l ↔ a ∈ l := by
  unfold jsSetOfList
  rw [mem_jsSetAux]
  simp

theorem nodup_jsSetOfList (l : List String) : (jsSetOfList l).Nodup :=
  nodup_jsSetAux l []

theorem pairwise_sizeLt_of_le {l : List String}
    (hsort : l.Pairwise sizeLe) (hnd : l.Nodup)
    (hinj : ∀ a ∈ l, ∀ b ∈ l, jsParseFloat a = jsParseFloat b → a = b) :
    l.Pairwise sizeLt := by
  have hne : l.Pairwise (fun a b => a ≠ b) := hnd
  have hand := List.Pairwise.and hsort hne
  refine List.Pairwise.imp_of_mem (fun {a} {b} ha hb hr => ?_) hand
  exact lt_of_le_of_ne hr.1 (fun he => hr.2 (hinj a ha b hb he))

theorem eq_of_perm_of_pairwise_sizeLt {l1 l2 : List String}
    (hperm : l1.Perm l2) (h1 : l1.Pairwise sizeLt) (h2 : l2.Pairwise sizeLt) :
    l1 = l2 := by
  haveI : IsAntisymm String sizeLt :=
    ⟨fun a b hab hba => absurd (lt_trans hab hba) (lt_irrefl _)⟩
  exact List.eq_of_perm_of_sorted hperm h1 h2

theorem availableSizes_key_inj {items : List Sneaker}
    (hdec : ∀ s ∈ items, DecFriendly s.size) :
    ∀ a ∈ availableSizes items, ∀ b ∈ availableSizes items,
      jsParseFloat a = jsParseFloat b → a = b := by
  have hmA : ∀ x ∈ availableSizes items, ∃ s, s ∈ items ∧ jsNumToString s.size = x := by
    intro x hx
    have hset : x ∈ jsSetOfList (items.map (fun s => jsNumToString s.size)) :=
      ((List.perm_insertionSort sizeLe _).mem_iff).mp hx
    exact List.mem_map.mp ((mem_jsSetOfList _ x).mp hset)
  intro a ha b hb hkey
  obtain ⟨s1, hs1, he1⟩ := hmA a ha
  obtain ⟨s2, hs2, he2⟩ := hmA b hb
  have hq1 : jsParseFloat a = s1.size := by
    rw [← he1]
    exact jsParseFloat_jsNumToString (hdec s1 hs1)
  have hq2 : jsParseFloat b = s2.size := by
    rw [← he2]
    exact jsParseFloat_jsNumToString (hdec s2 hs2)
  have hsq : s1.size = s2.size := by
    rw [← hq1, ← hq2, hkey]
  rw [← he1, ← he2, hsq]

/-- C3: `availableSizes` is duplicate-free, contains exactly the size
strings of the items, is sorted by the numeric parseFloat order rather
than lexically, and does not depend on the insertion order of the items
(stated for sizes in the decimal fragment of ℚ, which covers every JS
number). -/
theorem claim_C3 (items items2 : List Sneaker)
    (hperm : items.Perm items2)
    (hdec : ∀ s ∈ items, DecFriendly s.size) :
    (availableSizes items).Nodup ∧
    (∀ a, a ∈ availableSizes items ↔ ∃ s ∈ items, a = jsNumToString s.size) ∧
    (availableSizes items).Pairwise sizeLe ∧
    availableSizes items = availableSizes items2 := by
  have hnd : ∀ L : List Sneaker, (availableSizes L).Nodup := by
    intro L
    exact ((List.perm_insertionSort sizeLe _).nodup_iff).mpr (nodup_jsSetOfList _)
  have hsorted : ∀ L : List Sneaker, (availableSizes L).Pairwise sizeLe :=
    fun L => List.sorted_insertionSort sizeLe _
  have hmem : ∀ a, a ∈ availableSizes items ↔ ∃ s ∈ items, a = jsNumToString s.size := by
    intro a
    rw [show availableSizes items = List.insertionSort sizeLe
      (jsSetOfList (items.map (fun s => jsNumToString s.size))) from rfl]
    rw [(List.perm_insertionSort sizeLe _).mem_iff, mem_jsSetOfList, List.mem_map]
    constructor
    · rintro ⟨s, hs, he⟩
      exact ⟨s, hs, he.symm⟩
    · rintro ⟨s, hs, he⟩
      exact ⟨s, hs, he.symm⟩
  refine ⟨hnd items, hmem, hsorted items, ?_⟩
  have hdec2 : ∀ s ∈ items2, DecFriendly s.size :=
    fun s hs => hdec s (hperm.mem_iff.mpr hs)
  have hsetperm : (jsSetOfList (items.map (fun s => jsNumToString s.size))).Perm
      (jsSetOfList (items2.map (fun s => jsNumToString s.size))) := by
    apply (List.perm_ext_iff_of_nodup (nodup_jsSetOfList _) (nodup_jsSetOfList _)).mpr
    intro a
    rw [mem_jsSetOfList, mem_jsSetOfList]
    exact (hperm.map (fun s => jsNumToString s.size)).mem_iff
  have hsortperm : (availableSizes items).Perm (availableSizes items2) :=
    ((List.perm_insertionSort sizeLe _).trans hsetperm).trans
      (List.perm_insertionSort sizeLe _).symm
  apply eq_of_perm_of_pairwise_sizeLt hsortperm
  · exact pairwise_sizeLt_of_le (hsorted items) (hnd items) (availableSizes_key_inj hdec)
  · exact pairwise_sizeLt_of_le (hsorted items2) (hnd items2) (availableSizes_key_inj hdec2)

theorem claim_C3_witness :
    (availableSizes wItems1).Nodup ∧
    ("8.5" ∈ availableSizes wItems1 ↔
      ∃ s ∈ wItems1, "8.5" = jsNumToString s.size) ∧
    (availableSizes wItems1).Pairwise sizeLe ∧
    availableSizes wItems1 = availableSizes wItems2 := by
  have h := claim_C3 wItems1 wItems2 (by decide) (by decide)
  exact ⟨h.1, h.2.1 "8.5", h.2.2.1, h.2.2.2⟩

example : availableSizes wItems1 = ["8.5", "9", "10"] := by decide

example : availableSizes wItems2 = ["8.5", "9", "10"] := by decide

example : jsNumToString (mkRat 1 20) = "0.05" := by decide

example : jsParseFloat "8.5" = mkRat 17 2 := by decide

example :
    filteredSneakers wItems1 "nk-0" "" "" = wItems1 ∧
    filteredSneakers wItems1 "RED" "" "" = wItems1 ∧
    filteredSneakers wItems1 "" "Adidas" "" = [] ∧
    filteredSneakers wItems1 "" "" "8.5" = [wSneaker 3 (mkRat 17 2)] := by decide

end SneakerEngine
